import Mathlib

/-
Verification of the backup naming and retention scheme of
mobilerider/database-backuper (src/backuper.py), as a shallow embedding.

Object keys are modelled as lists of characters.  The serialization
template is the class attribute format_str and the inverse pattern is the
compiled regular expression format_re of class Backuper.
-/

namespace Backuper

/-- Object keys, and other Python strings, are modelled as lists of characters. -/
abbrev Key := List Char

/-- The literal suffix ".sql.gz" of every backup key. -/
def sqlGzSuffix : Key := ".sql.gz".data

/-- Serialization of a backup key, the format_str class attribute
'\x7bfrequency\x7d/\x7bfolder\x7d/\x7bdatabase\x7d_\x7btimestamp\x7d.sql.gz'
instantiated by str.format. -/
def formatKey (frequency folder database timestamp : Key) : Key :=
  frequency ++ '/' :: folder ++ '/' :: database ++ '_' :: timestamp ++ sqlGzSuffix

/-- The four named groups captured by format_re. -/
structure ParsedKey where
  frequency : Key
  folder : Key
  database : Key
  timestamp : Key
deriving DecidableEq

/-- Splits a list at the first occurrence of a character: returns the part
before it and the part after it, or none when the character is absent. -/
def splitFirst (c : Char) : List Char → Option (List Char × List Char)
  | [] => none
  | x :: xs =>
    if x = c then some ([], xs)
    else (splitFirst c xs).map (fun p => (x :: p.1, p.2))

/-- The match of the anchored pattern format_re, namely
caret (frequency [^/]+) / (folder [^/]+) / (database [^/_]+) _ (timestamp .+) backslash.sql backslash.gz dollar.
The character classes force frequency and folder to be the first two
slash-separated segments, and database to be the maximal run without
underscore or slash after them, followed by the literal underscore
separator; the timestamp is whatever remains once the literal suffix
".sql.gz" is removed, and, since the dot metacharacter does not match a
newline, may not contain a newline.  The dollar anchor of the Python re
module also matches just before one trailing newline, which the
preprocessing step in parseKey accounts for. -/
def parseKeyCore (s : Key) : Option ParsedKey :=
  match splitFirst '/' s with
  | none => none
  | some (freq, rest1) =>
    if freq = [] then none else
    match splitFirst '/' rest1 with
    | none => none
    | some (folder, rest2) =>
      if folder = [] then none else
      match splitFirst '_' rest2 with
      | none => none
      | some (db, rest3) =>
        if db = [] then none else
        if '/' ∈ db then none else
        if rest3.length < 8 then none else
        if rest3.drop (rest3.length - 7) ≠ sqlGzSuffix then none else
        if '\n' ∈ rest3.take (rest3.length - 7) then none else
        some ⟨freq, folder, db, rest3.take (rest3.length - 7)⟩

/-- Full-match semantics of format_re.match: the dollar anchor also accepts
a single trailing newline, which is stripped before the core match. -/
def parseKey (s : Key) : Option ParsedKey :=
  parseKeyCore (if s.getLast? = some '\n' then s.dropLast else s)

/-- Decimal digit character for a digit value; values of ten or more never
arise from n % 10. -/
def digitChar (n : Nat) : Char :=
  if n = 0 then '0' else if n = 1 then '1' else if n = 2 then '2'
  else if n = 3 then '3' else if n = 4 then '4' else if n = 5 then '5'
  else if n = 6 then '6' else if n = 7 then '7' else if n = 8 then '8'
  else if n = 9 then '9' else '0'

/-- Fuelled accumulator loop producing the decimal digits of a number,
least significant digit first into the accumulator. -/
def toDecimalAux : Nat → Nat → List Char → List Char
  | 0, _, acc => acc
  | fuel + 1, n, acc =>
    let acc := digitChar (n % 10) :: acc
    if n < 10 then acc else toDecimalAux fuel (n / 10) acc

/-- Decimal representation of a natural number, as used by the zero padded
numeric directives of strftime. -/
def toDecimal (n : Nat) : List Char := toDecimalAux (n + 1) n []

/-- Zero padding to a field width, modelling the zero padded decimal
directives of strftime (Y to four places, m d H M S to two). -/
def padZeros (w : Nat) (n : Nat) : List Char :=
  List.replicate (w - (toDecimal n).length) '0' ++ toDecimal n

/-- The value of datetime.now() captured in the Backuper constructor, as a
broken down civil time.  datetime.strftime in Python 2.7 requires year at
least 1900, so years are four digit in every run. -/
structure PyDateTime where
  year : Nat
  month : Nat
  day : Nat
  hour : Nat
  minute : Nat
  second : Nat
deriving DecidableEq

/-- strftime format of the hourly tier, percent Y-percent m-percent d-percent Hpercent Mpercent S. -/
def fmtHourly (t : PyDateTime) : Key :=
  padZeros 4 t.year ++ '-' :: padZeros 2 t.month ++ '-' :: padZeros 2 t.day
    ++ '-' :: padZeros 2 t.hour ++ padZeros 2 t.minute ++ padZeros 2 t.second

/-- strftime format of the daily tier, percent Y-percent m-percent d. -/
def fmtDaily (t : PyDateTime) : Key :=
  padZeros 4 t.year ++ '-' :: padZeros 2 t.month ++ '-' :: padZeros 2 t.day

/-- strftime format of the monthly tier, percent Y-percent m. -/
def fmtMonthly (t : PyDateTime) : Key :=
  padZeros 4 t.year ++ '-' :: padZeros 2 t.month

/-- strftime format of the yearly tier, percent Y. -/
def fmtYearly (t : PyDateTime) : Key :=
  padZeros 4 t.year

/-
The list comprehension building the filenames list in create_dump iterates
the items of a dict literal.  The host language is CPython 2.7, whose dict
iterates in hash table slot order, not insertion order; the slot order is
determined by the string hash function of CPython 2.7 (default build, hash
randomization off) and the open addressing probe of dictobject.c.  Both
are modelled below so that the actual iteration order of the four tier
attribute names is computed rather than assumed.
-/

/-- Two to the sixty fourth power, the modulus of arithmetic on the C long
used by the string hash of a 64 bit CPython 2.7 build.  On a 32 bit build
the resulting table order of the four keys below is the same, which was
checked separately with modulus two to the thirty second power. -/
def hashModulus : Nat := 2 ^ 64

/-- The string hash of CPython 2.7: x starts as the first byte shifted
left by seven, then for each byte x becomes (1000003 * x) xor byte, all
modulo the word size, and finally x is xored with the length.  A result
equal to the word of all one bits (minus one as a signed value) is
replaced by minus two. -/
def py2StrHash (s : Key) : Nat :=
  match s with
  | [] => 0
  | c0 :: _ =>
    let x0 := (c0.toNat <<< 7) % hashModulus
    let x1 := s.foldl (fun x c => (((1000003 * x) % hashModulus) ^^^ c.toNat)) x0
    let x2 := x1 ^^^ s.length
    if x2 = hashModulus - 1 then hashModulus - 2 else x2

/-- Open addressing probe of dictobject.c for a table of eight slots:
starting from hash mod 8 with perturb equal to the hash, while the slot is
occupied by a different key, the next slot is 5 * i + perturb + 1 mod 8
and perturb is shifted right by five.  The C code keeps the unmasked index
between iterations; masking each iteration is equivalent because the next
slot depends on the previous index only through its residue mod 8.
The fuel bound 64 is never reached on a table that has a free slot. -/
def py2ProbeSlot (table : List (Option Key)) (k : Key) : Nat → Nat → Nat → Nat
  | 0, i, _ => i
  | fuel + 1, i, perturb =>
    match table.get? i with
    | some (some k') =>
      if k' = k then i
      else py2ProbeSlot table k fuel ((5 * i + perturb + 1) % 8) (perturb / 32)
    | _ => i

/-- Insert a key into an eight slot CPython 2.7 hash table. -/
def py2DictInsert (table : List (Option Key)) (k : Key) : List (Option Key) :=
  table.set (py2ProbeSlot table k 64 (py2StrHash k % 8) (py2StrHash k)) (some k)

/-- Iteration order of a CPython 2.7 dict literal with at most five keys:
keys are inserted in source order into a fresh eight slot table (a dict
display presized to four keeps the minimum table size eight and never
resizes) and iteration reads the slots in table order. -/
def py2DictKeys (ks : List Key) : List Key :=
  (ks.foldl py2DictInsert (List.replicate 8 none)).filterMap id

/-- The keys of the strftime format dict literal of create_dump, in source
order: hourly, daily, monthly, yearly tier path attribute names. -/
def tierAttrs : List Key :=
  ["backups_hourly_path".data, "backups_daily_path".data,
   "backups_monthly_path".data, "backups_yearly_path".data]

/-- The order in which the items call of the dict literal yields the four
tier attributes at run time. -/
def tierAttrIterOrder : List Key := py2DictKeys tierAttrs

/-- Class attribute values backups_hourly_path and so on: the tier path
segment named by a tier attribute, read through getattr in create_dump. -/
def tierPathOf (attr : Key) : Key :=
  if attr = "backups_hourly_path".data then "hourly".data
  else if attr = "backups_daily_path".data then "daily".data
  else if attr = "backups_monthly_path".data then "monthly".data
  else "yearly".data

/-- The strftime format associated with a tier attribute in the dict
literal of create_dump. -/
def strftimeOf (attr : Key) (t : PyDateTime) : Key :=
  if attr = "backups_hourly_path".data then fmtHourly t
  else if attr = "backups_daily_path".data then fmtDaily t
  else if attr = "backups_monthly_path".data then fmtMonthly t
  else fmtYearly t

/-- The filenames list built at the top of create_dump: one serialized key
per tier attribute, in dict iteration order, for the captured now and the
folder and database of the connection being dumped. -/
def filenames (t : PyDateTime) (folder database : Key) : List Key :=
  tierAttrIterOrder.map
    (fun attr => formatKey (tierPathOf attr) folder database (strftimeOf attr t))

/-- A stored object as listed from the container: its key and its last
modified instant, modelled in seconds.  The derived age used by
house_keeping is now minus last_modified; Python would produce a negative
timedelta for an object modified in the future, whose floor divided hour
and day counts are negative and therefore never exceed a nonnegative
threshold, and the truncated natural subtraction used here yields zero
with the same outcome for every comparison performed by the code. -/
structure StoreObj where
  name : Key
  last_modified : Nat
deriving DecidableEq

/-- The backups container, as a list of stored objects. -/
abbrev Store := List StoreObj

/-- Observable operations issued to the process and object store
collaborators: mysqldump spawn, create_object upload, get_object read,
copy_object server side copy, list_container_objects with the startswith
filter applied by get_backup_objects, and object deletion. -/
inductive Action where
  | dumpProcess (database : Key)
  | createObject (name : Key)
  | getObject (name : Key)
  | copyObject (src dst : Key)
  | listObjects (p : Option Key)
  | deleteObject (name : Key)
deriving DecidableEq

/-- Read only operations: get_object and listing. -/
def Action.isRead : Action → Bool
  | .getObject _ => true
  | .listObjects _ => true
  | _ => false

/-- Whether an object exists at a key (get_object succeeds rather than
raising NoSuchObject). -/
def hasObject (store : Store) (k : Key) : Bool :=
  store.any (fun o => o.name = k)

/-- Writing an object at a key: the store keeps one object per key. -/
def putObject (store : Store) (k : Key) (lm : Nat) : Store :=
  store.filter (fun o => o.name ≠ k) ++ [⟨k, lm⟩]

/-- Deleting the object at a key. -/
def deleteByName (store : Store) (k : Key) : Store :=
  store.filter (fun o => o.name ≠ k)

/-- The flags and settings a Backuper instance reads: the overwrite,
dry_run and verbose command line flags (verbose only affects logging and
is omitted), the captured now in both broken down form (for strftime) and
seconds form (for timedelta arithmetic), and the three retention
settings as the setting method returns them: environ.get(name, default)
yields the raw environment string when the variable is present (modelled
as some of that string) and the numeric default int when absent
(modelled as none). -/
structure Config where
  overwrite : Bool
  dry_run : Bool
  now : PyDateTime
  nowSec : Nat
  hours_to_keep : Option Key
  days_to_keep : Option Key
  months_to_keep : Option Key

/-- Failure behaviour of the external collaborators in a run: whether the
mysqldump process exits nonzero, and which server side copies raise a
store error. -/
structure StoreEnv where
  dumpFails : Bool
  copyFails : Key → Key → Bool

/-- The environment with no collaborator failures. -/
def envOk : StoreEnv := ⟨false, fun _ _ => false⟩

/-- The promotion loop of create_dump over filenames[1:]: for each
filename, when overwrite is off, get_object is issued and an existing
object causes a logged skip (continue); otherwise, unless dry_run is set,
copy_object is issued from filenames[0].  A raised store error from
copy_object is not a CalledProcessError, so the surrounding try does not
catch it: the loop and create_dump are abandoned, which the third
component records as true. -/
def promoteLoop (cfg : Config) (env : StoreEnv) (src : Key) :
    List Key → Store → Store × List Action × Bool
  | [], store => (store, [], false)
  | dst :: rest, store =>
    if cfg.overwrite = false ∧ hasObject store dst then
      let r := promoteLoop cfg env src rest store
      (r.1, Action.getObject dst :: r.2.1, r.2.2)
    else
      let readT : List Action := if cfg.overwrite then [] else [Action.getObject dst]
      if cfg.dry_run then
        let r := promoteLoop cfg env src rest store
        (r.1, readT ++ r.2.1, r.2.2)
      else if env.copyFails src dst then
        (store, readT, true)
      else
        let r := promoteLoop cfg env src rest (putObject store dst cfg.nowSec)
        (r.1, readT ++ Action.copyObject src dst :: r.2.1, r.2.2)

/-- create_dump for one connection: builds the filenames list, and unless
dry_run is set spawns mysqldump (whose CalledProcessError is caught and
logged, ending the call with nothing uploaded), uploads the dump at
filenames[0], then runs the promotion loop over filenames[1:] with
filenames[0] as copy source.  Under dry_run no process is spawned and no
upload happens but the loop still runs and issues its get_object reads.
Returns the resulting store, the operations issued in order, and whether
an uncaught store error escaped the call. -/
def create_dump (cfg : Config) (env : StoreEnv) (store : Store)
    (folder database : Key) : Store × List Action × Bool :=
  let fns := filenames cfg.now folder database
  let src := fns.headD []
  if cfg.dry_run then
    promoteLoop cfg env src fns.tail store
  else if env.dumpFails then
    (store, [Action.dumpProcess database], false)
  else
    let r := promoteLoop cfg env src fns.tail (putObject store src cfg.nowSec)
    (r.1, Action.dumpProcess database :: Action.createObject src :: r.2.1, r.2.2)

/-- get_backup_objects: all container objects, kept when no prefix is
given or when the object name starts with the given prefix. -/
def getBackupObjects (store : Store) (p : Option Key) : List StoreObj :=
  store.filter (fun o =>
    match p with
    | none => true
    | some pre => pre.isPrefixOf o.name)

/-- Age test of the hourly pass: total seconds floor divided by 60 twice,
strictly greater than setting('hours_to_keep', 48).  With the
environment variable absent the comparison is against the default int 48
and is numeric.  With it present, environ.get returns a str, and a
CPython 2.7 mixed type comparison orders every number below every string
(comparison by type name), so the float > str test is constantly False
and the pass deletes nothing, whatever the string says. -/
def hourlyOld (cfg : Config) (o : StoreObj) : Bool :=
  match cfg.hours_to_keep with
  | none => ((cfg.nowSec - o.last_modified) / 60) / 60 > 48
  | some _ => false

/-- Age test of the daily pass: the days attribute of the timedelta
(total seconds floor divided by 86400), strictly greater than
setting('days_to_keep', 7).  As for the hourly pass, a present
environment value is a str and the int > str comparison of CPython 2.7
is constantly False. -/
def dailyOld (cfg : Config) (o : StoreObj) : Bool :=
  match cfg.days_to_keep with
  | none => (cfg.nowSec - o.last_modified) / 86400 > 7
  | some _ => false

/-- Age test of the monthly pass: the days attribute of the timedelta,
strictly greater than setting('months_to_keep', 24) * 30.  With the
variable absent this is the int 24 * 30 = 720.  With it present the
value is a str, str * 30 is string repetition in Python 2, and the
int > str comparison is again constantly False. -/
def monthlyOld (cfg : Config) (o : StoreObj) : Bool :=
  match cfg.months_to_keep with
  | none => (cfg.nowSec - o.last_modified) / 86400 > 24 * 30
  | some _ => false

/-- One pass of house_keeping: list the objects whose name starts with the
tier path, and delete each one whose age test holds, unless dry_run is on,
in which case the deletion is only logged.  The age test of one object
does not depend on the deletion of another, so the sequential per object
deletes amount to deleting every listed old object. -/
def pruneTier (dry : Bool) (pfx : Key) (old : StoreObj → Bool) (store : Store) :
    Store × List Action :=
  let dels := (getBackupObjects store (some pfx)).filter old
  ( if dry then store else dels.foldl (fun s o => deleteByName s o.name) store,
    Action.listObjects (some pfx) :: if dry then [] else dels.map (fun o => Action.deleteObject o.name) )

/-- house_keeping: the hourly, daily and monthly passes run in order, each
listing the store as left by the previous pass; the yearly tier has no
pass.  Returns the resulting store and the operations issued. -/
def house_keeping (cfg : Config) (store : Store) : Store × List Action :=
  let r1 := pruneTier cfg.dry_run "hourly".data (hourlyOld cfg) store
  let r2 := pruneTier cfg.dry_run "daily".data (dailyOld cfg) r1.1
  let r3 := pruneTier cfg.dry_run "monthly".data (monthlyOld cfg) r2.1
  (r3.1, r1.2 ++ r2.2 ++ r3.2)

/-- get_key_name in backup_status: the folder and database groups joined
with a slash when format_re matches the object name, none otherwise.  The
regular expression groups are nonempty, so the returned string is never
falsy when present and the truthiness guard of the source is simply
success of the match. -/
def getKeyName (o : StoreObj) : Option Key :=
  (parseKey o.name).map (fun p => p.folder ++ '/' :: p.database)

/-- get_frequency in backup_status: the frequency group of the match. -/
def getFrequency (o : StoreObj) : Option Key :=
  (parseKey o.name).map (fun p => p.frequency)

/-- The objects backup_status keeps: listed with no prefix, retained
exactly when get_key_name returns a (necessarily nonempty) name. -/
def statusObjects (store : Store) : List StoreObj :=
  (getBackupObjects store none).filter (fun o => (getKeyName o).isSome)

/-- backup_status: the retained objects grouped by folder slash database
key.  Each group also carries per frequency sublists and each list is
sorted newest first in the source; both only partition or permute the
group, so the grouped object lists are modelled and ordering is not. -/
def backup_status (store : Store) : List (Key × List StoreObj) :=
  ((statusObjects store).filterMap getKeyName).dedup.map
    (fun k => (k, (statusObjects store).filter (fun o => getKeyName o = some k)))

/-- Keys of an object store are unique; a container never holds two
objects under the same key.  Stores built by putObject keep this. -/
def namesUnique : Store → Bool
  | [] => true
  | o :: rest => rest.all (fun d => o.name ≠ d.name) && namesUnique rest

/-- A word has no newline character. -/
def noNl (l : List Char) : Prop := ∀ c ∈ l, c ≠ '\n'

/-- A sample instant used by concrete evaluations: 2024-03-01 05:30:00. -/
def sampleNow : PyDateTime := ⟨2024, 3, 1, 5, 30, 0⟩

/-- A sample configuration: overwrite off, dry_run off, default retention
settings, now equal to one billion seconds. -/
def sampleCfg : Config := ⟨false, false, sampleNow, 1000000000, none, none, none⟩

/- Theorems. -/

theorem splitFirst_append_cons (c : Char) (l r : List Char) (h : c ∉ l) :
    splitFirst c (l ++ c :: r) = some (l, r) := by
  induction l with
  | nil => simp [splitFirst]
  | cons x xs ih =>
    have hx : x ≠ c := fun e => h (e ▸ List.mem_cons_self x xs)
    have hxs : c ∉ xs := fun m => h (List.mem_cons_of_mem _ m)
    simp [splitFirst, hx, ih hxs]

theorem digitChar_ne (n : Nat) :
    digitChar n ≠ '\n' ∧ digitChar n ≠ '_' ∧ digitChar n ≠ '/' := by
  unfold digitChar
  split_ifs <;> exact ⟨by decide, by decide, by decide⟩

theorem mem_toDecimalAux (fuel : Nat) :
    ∀ (n : Nat) (acc : List Char) (c : Char), c ∈ toDecimalAux fuel n acc →
      c ∈ acc ∨ ∃ k, c = digitChar k := by
  induction fuel with
  | zero => intro n acc c h; exact Or.inl h
  | succ fuel ih =>
    intro n acc c h
    unfold toDecimalAux at h
    by_cases hn : n < 10
    · simp only [hn, if_true] at h
      rcases List.mem_cons.1 h with h | h
      · exact Or.inr ⟨n % 10, h⟩
      · exact Or.inl h
    · simp only [hn, if_false] at h
      rcases ih _ _ _ h with h | h
      · rcases List.mem_cons.1 h with h | h
        · exact Or.inr ⟨n % 10, h⟩
        · exact Or.inl h
      · exact Or.inr h

theorem toDecimalAux_ne_nil (fuel : Nat) :
    ∀ (n : Nat) (acc : List Char), acc ≠ [] → toDecimalAux fuel n acc ≠ [] := by
  induction fuel with
  | zero => intro n acc h; exact h
  | succ fuel ih =>
    intro n acc h
    unfold toDecimalAux
    by_cases hn : n < 10
    · simp [hn]
    · simp only [hn, if_false]
      exact ih _ _ (by simp)

theorem toDecimal_ne_nil (n : Nat) : toDecimal n ≠ [] := by
  unfold toDecimal toDecimalAux
  by_cases hn : n < 10
  · simp [hn]
  · simp only [hn, if_false]
    exact toDecimalAux_ne_nil _ _ _ (by simp)

theorem padZeros_chars (w n : Nat) (c : Char) (h : c ∈ padZeros w n) :
    c ≠ '\n' ∧ c ≠ '_' ∧ c ≠ '/' := by
  unfold padZeros at h
  rcases List.mem_append.1 h with h | h
  · rw [List.eq_of_mem_replicate h]
    exact ⟨by decide, by decide, by decide⟩
  · unfold toDecimal at h
    rcases mem_toDecimalAux _ _ _ _ h with h | ⟨k, rfl⟩
    · cases h
    · exact digitChar_ne k

theorem padZeros_ne_nil (w n : Nat) : padZeros w n ≠ [] := by
  intro h
  exact toDecimal_ne_nil n (List.append_eq_nil.1 h).2

theorem noNl_append {l1 l2 : List Char} (h1 : noNl l1) (h2 : noNl l2) :
    noNl (l1 ++ l2) := by
  intro c hc
  rcases List.mem_append.1 hc with h | h
  · exact h1 c h
  · exact h2 c h

theorem noNl_cons {c0 : Char} {l : List Char} (hc : c0 ≠ '\n') (h : noNl l) :
    noNl (c0 :: l) := by
  intro c hc'
  rcases List.mem_cons.1 hc' with rfl | h'
  · exact hc
  · exact h c h'

theorem noNl_padZeros (w n : Nat) : noNl (padZeros w n) :=
  fun c hc => (padZeros_chars w n c hc).1

theorem noNl_fmtHourly (t : PyDateTime) : noNl (fmtHourly t) := by
  unfold fmtHourly
  exact noNl_append (noNl_append (noNl_append (noNl_append
    (noNl_append (noNl_padZeros _ _) (noNl_cons (by decide) (noNl_padZeros _ _)))
    (noNl_cons (by decide) (noNl_padZeros _ _)))
    (noNl_cons (by decide) (noNl_padZeros _ _)))
    (noNl_padZeros _ _)) (noNl_padZeros _ _)

theorem noNl_fmtDaily (t : PyDateTime) : noNl (fmtDaily t) := by
  unfold fmtDaily
  exact noNl_append
    (noNl_append (noNl_padZeros _ _) (noNl_cons (by decide) (noNl_padZeros _ _)))
    (noNl_cons (by decide) (noNl_padZeros _ _))

theorem noNl_fmtMonthly (t : PyDateTime) : noNl (fmtMonthly t) := by
  unfold fmtMonthly
  exact noNl_append (noNl_padZeros _ _) (noNl_cons (by decide) (noNl_padZeros _ _))

theorem noNl_fmtYearly (t : PyDateTime) : noNl (fmtYearly t) :=
  noNl_padZeros _ _

theorem fmtHourly_ne_nil (t : PyDateTime) : fmtHourly t ≠ [] := by
  unfold fmtHourly
  intro h
  exact padZeros_ne_nil _ _ (List.append_eq_nil.1 h).2

theorem fmtDaily_ne_nil (t : PyDateTime) : fmtDaily t ≠ [] := by
  unfold fmtDaily
  intro h
  cases (List.append_eq_nil.1 h).2

theorem fmtMonthly_ne_nil (t : PyDateTime) : fmtMonthly t ≠ [] := by
  unfold fmtMonthly
  intro h
  cases (List.append_eq_nil.1 h).2

theorem fmtYearly_ne_nil (t : PyDateTime) : fmtYearly t ≠ [] :=
  padZeros_ne_nil _ _

theorem formatKey_eq_append (freq folder db ts : Key) :
    formatKey freq folder db ts =
      (freq ++ '/' :: folder ++ '/' :: db ++ '_' :: ts) ++ sqlGzSuffix := by
  simp [formatKey]

theorem formatKey_getLast? (freq folder db ts : Key) :
    (formatKey freq folder db ts).getLast? = some 'z' := by
  rw [formatKey_eq_append, List.getLast?_append_of_ne_nil _ (by decide)]
  decide

theorem parseKeyCore_formatKey (freq folder db ts : Key)
    (hf1 : freq ≠ []) (hf2 : '/' ∉ freq)
    (ho1 : folder ≠ []) (ho2 : '/' ∉ folder)
    (hd1 : db ≠ []) (hd2 : '/' ∉ db) (hd3 : '_' ∉ db)
    (ht1 : ts ≠ []) (ht2 : noNl ts) :
    parseKeyCore (formatKey freq folder db ts) = some ⟨freq, folder, db, ts⟩ := by
  have hlen : (ts ++ sqlGzSuffix).length = ts.length + 7 := by
    simp [sqlGzSuffix]
  have hlen1 : 1 ≤ ts.length := List.length_pos.2 ht1
  have hdrop : (ts ++ sqlGzSuffix).drop ((ts ++ sqlGzSuffix).length - 7) = sqlGzSuffix := by
    rw [hlen, Nat.add_sub_cancel, List.drop_left]
  have htake : (ts ++ sqlGzSuffix).take ((ts ++ sqlGzSuffix).length - 7) = ts := by
    rw [hlen, Nat.add_sub_cancel, List.take_left]
  unfold parseKeyCore formatKey
  simp only [List.append_assoc, List.cons_append]
  rw [splitFirst_append_cons _ _ _ hf2]
  simp only [hf1, if_false]
  rw [splitFirst_append_cons _ _ _ ho2]
  simp only [ho1, if_false]
  rw [splitFirst_append_cons _ _ _ hd3]
  simp only [hd1, if_false, hd2, if_false]
  rw [if_neg (by omega : ¬(ts ++ sqlGzSuffix).length < 8)]
  rw [if_neg (by rw [hdrop]; exact fun h => h rfl)]
  rw [htake, if_neg (fun h => ht2 '\n' h rfl)]

theorem parseKey_formatKey (freq folder db ts : Key)
    (hf1 : freq ≠ []) (hf2 : '/' ∉ freq)
    (ho1 : folder ≠ []) (ho2 : '/' ∉ folder)
    (hd1 : db ≠ []) (hd2 : '/' ∉ db) (hd3 : '_' ∉ db)
    (ht1 : ts ≠ []) (ht2 : noNl ts) :
    parseKey (formatKey freq folder db ts) = some ⟨freq, folder, db, ts⟩ := by
  unfold parseKey
  rw [formatKey_getLast?, if_neg (by decide)]
  exact parseKeyCore_formatKey freq folder db ts hf1 hf2 ho1 ho2 hd1 hd2 hd3 ht1 ht2

theorem tierAttrIterOrder_eq :
    tierAttrIterOrder =
      ["backups_daily_path".data, "backups_monthly_path".data,
       "backups_hourly_path".data, "backups_yearly_path".data] := by
  decide

theorem filenames_eq (t : PyDateTime) (folder db : Key) :
    filenames t folder db =
      [formatKey "daily".data folder db (fmtDaily t),
       formatKey "monthly".data folder db (fmtMonthly t),
       formatKey "hourly".data folder db (fmtHourly t),
       formatKey "yearly".data folder db (fmtYearly t)] := by
  unfold filenames
  rw [tierAttrIterOrder_eq]
  simp only [List.map_cons, List.map_nil]
  rw [show tierPathOf "backups_daily_path".data = "daily".data from by decide,
      show tierPathOf "backups_monthly_path".data = "monthly".data from by decide,
      show tierPathOf "backups_hourly_path".data = "hourly".data from by decide,
      show tierPathOf "backups_yearly_path".data = "yearly".data from by decide,
      show ∀ t, strftimeOf "backups_daily_path".data t = fmtDaily t from fun t => by
        unfold strftimeOf; rw [if_neg (by decide), if_pos (by decide)],
      show ∀ t, strftimeOf "backups_monthly_path".data t = fmtMonthly t from fun t => by
        unfold strftimeOf; rw [if_neg (by decide), if_neg (by decide), if_pos (by decide)],
      show ∀ t, strftimeOf "backups_hourly_path".data t = fmtHourly t from fun t => by
        unfold strftimeOf; rw [if_pos (by decide)],
      show ∀ t, strftimeOf "backups_yearly_path".data t = fmtYearly t from fun t => by
        unfold strftimeOf
        rw [if_neg (by decide), if_neg (by decide), if_neg (by decide)]]

theorem foldl_deleteByName (ds : List StoreObj) (store : Store) :
    ds.foldl (fun s o => deleteByName s o.name) store =
      store.filter (fun x => ds.all (fun d => x.name ≠ d.name)) := by
  induction ds generalizing store with
  | nil => simp
  | cons d ds ih =>
    rw [List.foldl_cons, ih]
    unfold deleteByName
    rw [List.filter_filter]
    apply List.filter_congr
    intro x _
    simp [Bool.and_comm]

theorem mem_pruneTier (dry : Bool) (pfx : Key) (old : StoreObj → Bool)
    (store : Store) (o : StoreObj) :
    o ∈ (pruneTier dry pfx old store).1 ↔
      o ∈ store ∧ (dry = true ∨
        ∀ d ∈ store, pfx.isPrefixOf d.name = true → old d = true → o.name ≠ d.name) := by
  unfold pruneTier getBackupObjects
  by_cases hdry : dry
  · simp [hdry]
  · simp only [hdry, if_false, Bool.false_eq_true, false_or]
    rw [foldl_deleteByName, List.mem_filter]
    simp only [List.all_eq_true, List.mem_filter, decide_eq_true_iff, and_imp]

theorem pruneTier_trace_mem (dry : Bool) (pfx : Key) (old : StoreObj → Bool)
    (store : Store) (a : Action) (h : a ∈ (pruneTier dry pfx old store).2) :
    a = Action.listObjects (some pfx) ∨
      ∃ o ∈ store, pfx.isPrefixOf o.name = true ∧ old o = true ∧
        a = Action.deleteObject o.name := by
  unfold pruneTier getBackupObjects at h
  cases dry with
  | true =>
    simp at h
    exact Or.inl h
  | false =>
    simp only [Bool.false_eq_true, if_false, List.mem_cons, List.mem_map,
      List.mem_filter, decide_eq_true_iff] at h
    rcases h with h | ⟨o, ⟨⟨ho, hp⟩, hold⟩, rfl⟩
    · exact Or.inl h
    · exact Or.inr ⟨o, ho, hp, hold, rfl⟩

theorem pruneTier_trace_delete (pfx : Key) (old : StoreObj → Bool)
    (store : Store) (o : StoreObj) (ho : o ∈ store)
    (hp : pfx.isPrefixOf o.name = true) (hold : old o = true) :
    Action.deleteObject o.name ∈ (pruneTier false pfx old store).2 := by
  unfold pruneTier getBackupObjects
  simp only [Bool.false_eq_true, if_false, List.mem_cons, List.mem_map,
    List.mem_filter, decide_eq_true_iff]
  exact Or.inr ⟨o, ⟨⟨ho, hp⟩, hold⟩, rfl⟩

theorem namesUnique_inj (store : Store) (hu : namesUnique store = true) :
    ∀ o ∈ store, ∀ d ∈ store, o.name = d.name → o = d := by
  induction store with
  | nil => intro o ho; cases ho
  | cons x rest ih =>
    unfold namesUnique at hu
    rw [Bool.and_eq_true, List.all_eq_true] at hu
    have hx : ∀ d ∈ rest, x.name ≠ d.name := fun d hd => by simpa using hu.1 d hd
    intro o ho d hd he
    rcases List.mem_cons.1 ho with ho1 | ho1 <;> rcases List.mem_cons.1 hd with hd1 | hd1
    · rw [ho1, hd1]
    · rw [ho1] at he; exact absurd he (hx d hd1)
    · rw [hd1] at he; exact absurd he.symm (hx o ho1)
    · exact ih hu.2 o ho1 d hd1 he

theorem namesUnique_filter (p : StoreObj → Bool) (store : Store)
    (hu : namesUnique store = true) : namesUnique (store.filter p) = true := by
  induction store with
  | nil => simp [namesUnique]
  | cons x rest ih =>
    unfold namesUnique at hu
    rw [Bool.and_eq_true, List.all_eq_true] at hu
    rw [List.filter_cons]
    by_cases hp : p x
    · simp only [hp, if_true]
      unfold namesUnique
      rw [Bool.and_eq_true, List.all_eq_true]
      exact ⟨fun d hd => hu.1 d (List.mem_filter.1 hd).1, ih hu.2⟩
    · simp only [hp, if_false]
      exact ih hu.2

theorem pruneTier_namesUnique (dry : Bool) (pfx : Key) (old : StoreObj → Bool)
    (store : Store) (hu : namesUnique store = true) :
    namesUnique (pruneTier dry pfx old store).1 = true := by
  unfold pruneTier
  by_cases hdry : dry
  · simpa [hdry] using hu
  · simp only [hdry, if_false]
    rw [foldl_deleteByName]
    exact namesUnique_filter _ _ hu

theorem isPrefixOf_head_ne {c1 c2 : Char} {r1 r2 n : Key} (hne : c1 ≠ c2)
    (h1 : (c1 :: r1).isPrefixOf n = true) : (c2 :: r2).isPrefixOf n = false := by
  cases n with
  | nil => cases h1
  | cons a m =>
    rw [List.isPrefixOf_iff_prefix, List.cons_prefix_cons] at h1
    rw [← Bool.not_eq_true, List.isPrefixOf_iff_prefix, List.cons_prefix_cons]
    rintro ⟨rfl, -⟩
    exact hne h1.1

theorem pruneTier_keep_of_no_pfx (dry : Bool) (pfx : Key) (old : StoreObj → Bool)
    (store : Store) (o : StoreObj) (ho : o ∈ store)
    (h : pfx.isPrefixOf o.name = false) : o ∈ (pruneTier dry pfx old store).1 := by
  rw [mem_pruneTier]
  refine ⟨ho, Or.inr fun d _ hp _ he => ?_⟩
  rw [he] at h
  rw [h] at hp
  cases hp

theorem pruneTier_mem_iff_of_no_pfx (dry : Bool) (pfx : Key) (old : StoreObj → Bool)
    (store : Store) (o : StoreObj) (h : pfx.isPrefixOf o.name = false) :
    o ∈ (pruneTier dry pfx old store).1 ↔ o ∈ store :=
  ⟨fun hm => ((mem_pruneTier dry pfx old store o).1 hm).1,
   fun hm => pruneTier_keep_of_no_pfx dry pfx old store o hm h⟩

theorem pruneTier_mem_iff_of_pfx (pfx : Key) (old : StoreObj → Bool)
    (store : Store) (o : StoreObj) (hu : namesUnique store = true)
    (ho : o ∈ store) (hp : pfx.isPrefixOf o.name = true) :
    (o ∈ (pruneTier false pfx old store).1 ↔ old o = false) := by
  rw [mem_pruneTier]
  simp only [Bool.false_eq_true, false_or]
  constructor
  · rintro ⟨-, h⟩
    rw [← Bool.not_eq_true]
    intro hold
    exact h o ho hp hold rfl
  · intro hold
    refine ⟨ho, fun d hd hpd holdd he => ?_⟩
    have : o = d := namesUnique_inj store hu o ho d hd he
    rw [← this] at holdd
    rw [holdd] at hold
    cases hold


/-- Claim C3, code bug, evaluation of the code at a concrete input: in a
run at 2024-03-01 05:30:00 for folder prod and database orders, the
filenames list begins with the daily key, not the hourly key, because the
dict literal of create_dump iterates in hash table order; the object
stored unconditionally is the daily key and the copy targets are the
monthly, hourly and yearly keys with the daily key as source. -/
theorem C3_eval :
    filenames sampleNow "prod".data "orders".data =
      ["daily/prod/orders_2024-03-01.sql.gz".data,
       "monthly/prod/orders_2024-03.sql.gz".data,
       "hourly/prod/orders_2024-03-01-053000.sql.gz".data,
       "yearly/prod/orders_2024.sql.gz".data] ∧
    (create_dump sampleCfg envOk [] "prod".data "orders".data).2.1 =
      [Action.dumpProcess "orders".data,
       Action.createObject "daily/prod/orders_2024-03-01.sql.gz".data,
       Action.getObject "monthly/prod/orders_2024-03.sql.gz".data,
       Action.copyObject "daily/prod/orders_2024-03-01.sql.gz".data
         "monthly/prod/orders_2024-03.sql.gz".data,
       Action.getObject "hourly/prod/orders_2024-03-01-053000.sql.gz".data,
       Action.copyObject "daily/prod/orders_2024-03-01.sql.gz".data
         "hourly/prod/orders_2024-03-01-053000.sql.gz".data,
       Action.getObject "yearly/prod/orders_2024.sql.gz".data,
       Action.copyObject "daily/prod/orders_2024-03-01.sql.gz".data
         "yearly/prod/orders_2024.sql.gz".data] := by
  decide

/-- Claim C1, counterexample: the key hourly/junk does not match the
serialization pattern, yet house_keeping deletes it once it is old, since
pruning checks only the name prefix and the age. -/
theorem C1_counterexample :
    parseKey "hourly/junk".data = none ∧
    Action.deleteObject "hourly/junk".data ∈
      (house_keeping sampleCfg [⟨"hourly/junk".data, 0⟩]).2 ∧
    ⟨"hourly/junk".data, 0⟩ ∉ (house_keeping sampleCfg [⟨"hourly/junk".data, 0⟩]).1 := by
  decide

/-- Claim C2, counterexample: an hourly object whose age is 48 hours plus
one second exceeds the 48 hour default max age by a positive amount, yet
house_keeping retains it, because the comparison floors the age to whole
hours first. -/
theorem C2_counterexample :
    172801 > 48 * 3600 ∧
    (house_keeping ⟨false, false, sampleNow, 172801, none, none, none⟩
        [⟨"hourly/p/d_2024.sql.gz".data, 0⟩]).1 =
      [⟨"hourly/p/d_2024.sql.gz".data, 0⟩] := by
  decide

/-- Claim C4, counterexample: when the copy to the first coarser key
raises a store error, create_dump ends immediately with the error escaping
(no CalledProcessError is involved), and no operation for the remaining
coarser keys is attempted. -/
theorem C4_counterexample :
    (create_dump sampleCfg
        ⟨false, fun _ d => d = "monthly/prod/orders_2024-03.sql.gz".data⟩
        [] "prod".data "orders".data).2.2 = true ∧
    (create_dump sampleCfg
        ⟨false, fun _ d => d = "monthly/prod/orders_2024-03.sql.gz".data⟩
        [] "prod".data "orders".data).2.1 =
      [Action.dumpProcess "orders".data,
       Action.createObject "daily/prod/orders_2024-03-01.sql.gz".data,
       Action.getObject "monthly/prod/orders_2024-03.sql.gz".data] := by
  decide

/-- Claim C5, counterexample: for the database name my_db, which contains
an underscore, the first derived key parses back with database my and
timestamp db_2024-03-01, not the original database name. -/
theorem C5_counterexample :
    (filenames sampleNow "prod".data "my_db".data).headD [] =
      "daily/prod/my_db_2024-03-01.sql.gz".data ∧
    parseKey "daily/prod/my_db_2024-03-01.sql.gz".data =
      some ⟨"daily".data, "prod".data, "my".data, "db_2024-03-01".data⟩ ∧
    ("my".data : Key) ≠ "my_db".data := by
  decide

/-- Claim C6, code bug, evaluation of the code at a concrete input: after
a first run, the daily key exists in the store, yet a second run with
overwrite off uploads to the daily key again (it is filenames[0], the
unconditional upload), while the monthly, hourly and yearly keys are only
probed and skipped; the second run is therefore not a no-op for the
already existing daily key. -/
theorem C6_eval :
    hasObject (create_dump sampleCfg envOk [] "prod".data "orders".data).1
      "daily/prod/orders_2024-03-01.sql.gz".data = true ∧
    (create_dump sampleCfg envOk
        (create_dump sampleCfg envOk [] "prod".data "orders".data).1
        "prod".data "orders".data).2.1 =
      [Action.dumpProcess "orders".data,
       Action.createObject "daily/prod/orders_2024-03-01.sql.gz".data,
       Action.getObject "monthly/prod/orders_2024-03.sql.gz".data,
       Action.getObject "hourly/prod/orders_2024-03-01-053000.sql.gz".data,
       Action.getObject "yearly/prod/orders_2024.sql.gz".data] := by
  decide

/-- Claim C7, code bug, evaluation of the code at a concrete input: with
overwrite on and all four keys already present, every key of
filenames[1:] is copied regardless of existence, but the copies go to the
monthly, hourly and yearly keys with the daily key as source; the daily
key is never a copy target and the hourly key is not the source. -/
theorem C7_eval :
    (create_dump ⟨true, false, sampleNow, 1000000000, none, none, none⟩ envOk
        [⟨"daily/prod/orders_2024-03-01.sql.gz".data, 0⟩,
         ⟨"monthly/prod/orders_2024-03.sql.gz".data, 0⟩,
         ⟨"hourly/prod/orders_2024-03-01-053000.sql.gz".data, 0⟩,
         ⟨"yearly/prod/orders_2024.sql.gz".data, 0⟩]
        "prod".data "orders".data).2.1 =
      [Action.dumpProcess "orders".data,
       Action.createObject "daily/prod/orders_2024-03-01.sql.gz".data,
       Action.copyObject "daily/prod/orders_2024-03-01.sql.gz".data
         "monthly/prod/orders_2024-03.sql.gz".data,
       Action.copyObject "daily/prod/orders_2024-03-01.sql.gz".data
         "hourly/prod/orders_2024-03-01-053000.sql.gz".data,
       Action.copyObject "daily/prod/orders_2024-03-01.sql.gz".data
         "yearly/prod/orders_2024.sql.gz".data] := by
  decide

/-- Claim C5, amended: provided the folder is nonempty without a slash
(true of every slug) and the database name is nonempty and contains
neither a slash nor an underscore, every key produced by the key
derivation parses back to its tier, folder, database, and the literal
formatted timestamp. -/
theorem C5_amended (t : PyDateTime) (folder db : Key)
    (ho1 : folder ≠ []) (ho2 : '/' ∉ folder)
    (hd1 : db ≠ []) (hd2 : '/' ∉ db) (hd3 : '_' ∉ db) :
    (filenames t folder db).map parseKey =
      [some ⟨"daily".data, folder, db, fmtDaily t⟩,
       some ⟨"monthly".data, folder, db, fmtMonthly t⟩,
       some ⟨"hourly".data, folder, db, fmtHourly t⟩,
       some ⟨"yearly".data, folder, db, fmtYearly t⟩] := by
  rw [filenames_eq]
  simp only [List.map_cons, List.map_nil]
  rw [parseKey_formatKey _ _ _ _ (by decide) (by decide) ho1 ho2 hd1 hd2 hd3
        (fmtDaily_ne_nil t) (noNl_fmtDaily t),
      parseKey_formatKey _ _ _ _ (by decide) (by decide) ho1 ho2 hd1 hd2 hd3
        (fmtMonthly_ne_nil t) (noNl_fmtMonthly t),
      parseKey_formatKey _ _ _ _ (by decide) (by decide) ho1 ho2 hd1 hd2 hd3
        (fmtHourly_ne_nil t) (noNl_fmtHourly t),
      parseKey_formatKey _ _ _ _ (by decide) (by decide) ho1 ho2 hd1 hd2 hd3
        (fmtYearly_ne_nil t) (noNl_fmtYearly t)]

/-- Claim C5, witness: the amended round trip at a concrete input. -/
theorem C5_witness :
    (("prod".data : Key) ≠ [] ∧ '/' ∉ ("prod".data : Key) ∧
     ("orders".data : Key) ≠ [] ∧ '/' ∉ ("orders".data : Key) ∧
     '_' ∉ ("orders".data : Key)) ∧
    (filenames sampleNow "prod".data "orders".data).map parseKey =
      [some ⟨"daily".data, "prod".data, "orders".data, fmtDaily sampleNow⟩,
       some ⟨"monthly".data, "prod".data, "orders".data, fmtMonthly sampleNow⟩,
       some ⟨"hourly".data, "prod".data, "orders".data, fmtHourly sampleNow⟩,
       some ⟨"yearly".data, "prod".data, "orders".data, fmtYearly sampleNow⟩] :=
  ⟨by decide,
   C5_amended sampleNow "prod".data "orders".data (by decide) (by decide)
     (by decide) (by decide) (by decide)⟩

theorem promoteLoop_error (cfg : Config) (env : StoreEnv) (src : Key) :
    ∀ (dsts : List Key) (store : Store),
      (promoteLoop cfg env src dsts store).2.2 = true →
      ∃ pre dst post, dsts = pre ++ dst :: post ∧
        env.copyFails src dst = true ∧
        promoteLoop cfg env src dsts store =
          ((promoteLoop cfg env src pre store).1,
           (promoteLoop cfg env src pre store).2.1 ++
             (if cfg.overwrite then [] else [Action.getObject dst]),
           true) := by
  intro dsts
  induction dsts with
  | nil => intro store he; cases he
  | cons dst rest ih =>
    intro store he
    by_cases hskip : cfg.overwrite = false ∧ hasObject store dst = true
    · rw [show promoteLoop cfg env src (dst :: rest) store =
          ((promoteLoop cfg env src rest store).1,
           Action.getObject dst :: (promoteLoop cfg env src rest store).2.1,
           (promoteLoop cfg env src rest store).2.2) from by
        simp only [promoteLoop]; rw [if_pos hskip]] at he ⊢
      rcases ih store he with ⟨pre, d, post, hd1, hd2, hd3⟩
      refine ⟨dst :: pre, d, post, by simp [hd1], hd2, ?_⟩
      rw [show promoteLoop cfg env src (dst :: pre) store =
          ((promoteLoop cfg env src pre store).1,
           Action.getObject dst :: (promoteLoop cfg env src pre store).2.1,
           (promoteLoop cfg env src pre store).2.2) from by
        simp only [promoteLoop]; rw [if_pos hskip]]
      rw [hd3]
      simp
    · by_cases hdry : cfg.dry_run = true
      · rw [show promoteLoop cfg env src (dst :: rest) store =
            ((promoteLoop cfg env src rest store).1,
             (if cfg.overwrite then [] else [Action.getObject dst]) ++
               (promoteLoop cfg env src rest store).2.1,
             (promoteLoop cfg env src rest store).2.2) from by
          simp only [promoteLoop]; rw [if_neg hskip, if_pos hdry]] at he ⊢
        rcases ih store he with ⟨pre, d, post, hd1, hd2, hd3⟩
        refine ⟨dst :: pre, d, post, by simp [hd1], hd2, ?_⟩
        rw [show promoteLoop cfg env src (dst :: pre) store =
            ((promoteLoop cfg env src pre store).1,
             (if cfg.overwrite then [] else [Action.getObject dst]) ++
               (promoteLoop cfg env src pre store).2.1,
             (promoteLoop cfg env src pre store).2.2) from by
          simp only [promoteLoop]; rw [if_neg hskip, if_pos hdry]]
        rw [hd3]
        simp
      · by_cases hcf : env.copyFails src dst = true
        · refine ⟨[], dst, rest, rfl, hcf, ?_⟩
          unfold promoteLoop
          rw [if_neg hskip, if_neg hdry, if_pos hcf]
          simp
        · rw [show promoteLoop cfg env src (dst :: rest) store =
              ((promoteLoop cfg env src rest (putObject store dst cfg.nowSec)).1,
               (if cfg.overwrite then [] else [Action.getObject dst]) ++
                 Action.copyObject src dst ::
                 (promoteLoop cfg env src rest (putObject store dst cfg.nowSec)).2.1,
               (promoteLoop cfg env src rest (putObject store dst cfg.nowSec)).2.2)
              from by
            simp only [promoteLoop]; rw [if_neg hskip, if_neg hdry, if_neg hcf]] at he ⊢
          rcases ih (putObject store dst cfg.nowSec) he with ⟨pre, d, post, hd1, hd2, hd3⟩
          refine ⟨dst :: pre, d, post, by simp [hd1], hd2, ?_⟩
          rw [show promoteLoop cfg env src (dst :: pre) store =
              ((promoteLoop cfg env src pre (putObject store dst cfg.nowSec)).1,
               (if cfg.overwrite then [] else [Action.getObject dst]) ++
                 Action.copyObject src dst ::
                 (promoteLoop cfg env src pre (putObject store dst cfg.nowSec)).2.1,
               (promoteLoop cfg env src pre (putObject store dst cfg.nowSec)).2.2)
              from by
            simp only [promoteLoop]; rw [if_neg hskip, if_neg hdry, if_neg hcf]]
          rw [hd3]
          simp

/-- Claim C4, amended: a store error raised by a copy to any coarser key
is not caught (the surrounding try handles only a CalledProcessError from
the dump process), so it escapes create_dump and none of the operations
for the coarser keys after the failing one is attempted: whenever a store
error escapes the call, the run equals the run over the coarser keys
before the failing one, followed at most by the existence probe of the
failing key, and nothing else. -/
theorem C4_amended (cfg : Config) (env : StoreEnv) (store : Store) (folder db : Key)
    (hdry : cfg.dry_run = false) (hdf : env.dumpFails = false)
    (he : (create_dump cfg env store folder db).2.2 = true) :
    ∃ pre dst post,
      (filenames cfg.now folder db).tail = pre ++ dst :: post ∧
      env.copyFails ((filenames cfg.now folder db).headD []) dst = true ∧
      create_dump cfg env store folder db =
        ((promoteLoop cfg env ((filenames cfg.now folder db).headD []) pre
            (putObject store ((filenames cfg.now folder db).headD []) cfg.nowSec)).1,
         Action.dumpProcess db ::
           Action.createObject ((filenames cfg.now folder db).headD []) ::
           ((promoteLoop cfg env ((filenames cfg.now folder db).headD []) pre
              (putObject store ((filenames cfg.now folder db).headD [])
                cfg.nowSec)).2.1 ++
            (if cfg.overwrite then [] else [Action.getObject dst])),
         true) := by
  have hcd : create_dump cfg env store folder db =
      ((promoteLoop cfg env ((filenames cfg.now folder db).headD [])
          (filenames cfg.now folder db).tail
          (putObject store ((filenames cfg.now folder db).headD []) cfg.nowSec)).1,
       Action.dumpProcess db ::
         Action.createObject ((filenames cfg.now folder db).headD []) ::
         (promoteLoop cfg env ((filenames cfg.now folder db).headD [])
            (filenames cfg.now folder db).tail
            (putObject store ((filenames cfg.now folder db).headD [])
              cfg.nowSec)).2.1,
       (promoteLoop cfg env ((filenames cfg.now folder db).headD [])
          (filenames cfg.now folder db).tail
          (putObject store ((filenames cfg.now folder db).headD [])
            cfg.nowSec)).2.2) := by
    unfold create_dump
    rw [hdry, hdf]
    simp
  rw [hcd] at he ⊢
  rcases promoteLoop_error cfg env _ _ _ he with ⟨pre, d, post, hd1, hd2, hd3⟩
  refine ⟨pre, d, post, hd1, hd2, ?_⟩
  rw [hd3]

/-- Claim C4, witness: the amended statement applied at a concrete input
where the copy to the monthly key raises. -/
theorem C4_witness :
    ((⟨true, false, sampleNow, 1000000000, none, none, none⟩ : Config).dry_run = false ∧
     (create_dump ⟨true, false, sampleNow, 1000000000, none, none, none⟩
        ⟨false, fun _ d => d = "monthly/prod/orders_2024-03.sql.gz".data⟩
        [] "prod".data "orders".data).2.2 = true) ∧
    ∃ pre dst post,
      (filenames sampleNow "prod".data "orders".data).tail = pre ++ dst :: post ∧
      (⟨false, fun _ d => d = "monthly/prod/orders_2024-03.sql.gz".data⟩
          : StoreEnv).copyFails
        ((filenames sampleNow "prod".data "orders".data).headD []) dst = true ∧
      create_dump ⟨true, false, sampleNow, 1000000000, none, none, none⟩
          ⟨false, fun _ d => d = "monthly/prod/orders_2024-03.sql.gz".data⟩
          [] "prod".data "orders".data =
        ((promoteLoop ⟨true, false, sampleNow, 1000000000, none, none, none⟩
            ⟨false, fun _ d => d = "monthly/prod/orders_2024-03.sql.gz".data⟩
            ((filenames sampleNow "prod".data "orders".data).headD []) pre
            (putObject []
              ((filenames sampleNow "prod".data "orders".data).headD [])
              1000000000)).1,
         Action.dumpProcess "orders".data ::
           Action.createObject
             ((filenames sampleNow "prod".data "orders".data).headD []) ::
           ((promoteLoop ⟨true, false, sampleNow, 1000000000, none, none, none⟩
              ⟨false, fun _ d => d = "monthly/prod/orders_2024-03.sql.gz".data⟩
              ((filenames sampleNow "prod".data "orders".data).headD []) pre
              (putObject []
                ((filenames sampleNow "prod".data "orders".data).headD [])
                1000000000)).2.1 ++
            (if (⟨true, false, sampleNow, 1000000000, none, none, none⟩
                : Config).overwrite then []
             else [Action.getObject dst])),
         true) :=
  ⟨⟨rfl, by decide⟩,
   C4_amended ⟨true, false, sampleNow, 1000000000, none, none, none⟩
     ⟨false, fun _ d => d = "monthly/prod/orders_2024-03.sql.gz".data⟩
     [] "prod".data "orders".data rfl rfl (by decide)⟩

/-- Claim C2, amended: when a tier's retention environment setting is
absent, pruning compares the age floored to whole units (hours for the
hourly tier via two floor divisions by 60, days for the daily and
monthly tiers via the days attribute) strictly against the numeric
default (48 hours, 7 days, 24 * 30 days): age equal to the threshold is
retained, and deletion happens exactly when the floored age strictly
exceeds it, that is when the age reaches the threshold plus one full
unit; exceeding by a fraction of a unit does not delete.  When the
setting is present in the environment, it is a string, the CPython 2.7
mixed type comparison number > str is constantly False, and the tier
deletes nothing at any age. -/
theorem C2_amended (cfg : Config) (store : Store) (o : StoreObj)
    (hu : namesUnique store = true) (ho : o ∈ store) (hdry : cfg.dry_run = false) :
    ("hourly".data.isPrefixOf o.name = true →
      (o ∈ (house_keeping cfg store).1 ↔
        ¬(cfg.hours_to_keep = none ∧
          ((cfg.nowSec - o.last_modified) / 60) / 60 > 48))) ∧
    ("daily".data.isPrefixOf o.name = true →
      (o ∈ (house_keeping cfg store).1 ↔
        ¬(cfg.days_to_keep = none ∧
          (cfg.nowSec - o.last_modified) / 86400 > 7))) ∧
    ("monthly".data.isPrefixOf o.name = true →
      (o ∈ (house_keeping cfg store).1 ↔
        ¬(cfg.months_to_keep = none ∧
          (cfg.nowSec - o.last_modified) / 86400 > 24 * 30))) := by
  have hk : (house_keeping cfg store).1 =
      (pruneTier false "monthly".data (monthlyOld cfg)
        (pruneTier false "daily".data (dailyOld cfg)
          (pruneTier false "hourly".data (hourlyOld cfg) store).1).1).1 := by
    unfold house_keeping
    rw [hdry]
  rw [hk]
  have hhd : ("hourly".data : Key) = 'h' :: "ourly".data := rfl
  have hdd : ("daily".data : Key) = 'd' :: "aily".data := rfl
  have hmd : ("monthly".data : Key) = 'm' :: "onthly".data := rfl
  refine ⟨fun hp => ?_, fun hp => ?_, fun hp => ?_⟩
  · have hd0 : "daily".data.isPrefixOf o.name = false := by
      rw [hdd]; exact isPrefixOf_head_ne (by decide) (hhd ▸ hp)
    have hm0 : "monthly".data.isPrefixOf o.name = false := by
      rw [hmd]; exact isPrefixOf_head_ne (by decide) (hhd ▸ hp)
    rw [pruneTier_mem_iff_of_no_pfx _ _ _ _ _ hm0,
        pruneTier_mem_iff_of_no_pfx _ _ _ _ _ hd0,
        pruneTier_mem_iff_of_pfx _ _ _ _ hu ho hp]
    cases hopt : cfg.hours_to_keep with
    | none => simp [hourlyOld, hopt, decide_eq_false_iff_not]
    | some v => simp [hourlyOld, hopt]
  · have hh0 : "hourly".data.isPrefixOf o.name = false := by
      rw [hhd]; exact isPrefixOf_head_ne (by decide) (hdd ▸ hp)
    have hm0 : "monthly".data.isPrefixOf o.name = false := by
      rw [hmd]; exact isPrefixOf_head_ne (by decide) (hdd ▸ hp)
    have hu1 : namesUnique
        (pruneTier false "hourly".data (hourlyOld cfg) store).1 = true :=
      pruneTier_namesUnique _ _ _ _ hu
    have ho1 : o ∈ (pruneTier false "hourly".data (hourlyOld cfg) store).1 :=
      pruneTier_keep_of_no_pfx _ _ _ _ _ ho hh0
    rw [pruneTier_mem_iff_of_no_pfx _ _ _ _ _ hm0,
        pruneTier_mem_iff_of_pfx _ _ _ _ hu1 ho1 hp]
    cases hopt : cfg.days_to_keep with
    | none => simp [dailyOld, hopt, decide_eq_false_iff_not]
    | some v => simp [dailyOld, hopt]
  · have hh0 : "hourly".data.isPrefixOf o.name = false := by
      rw [hhd]; exact isPrefixOf_head_ne (by decide) (hmd ▸ hp)
    have hd0 : "daily".data.isPrefixOf o.name = false := by
      rw [hdd]; exact isPrefixOf_head_ne (by decide) (hmd ▸ hp)
    have hu2 : namesUnique
        (pruneTier false "daily".data (dailyOld cfg)
          (pruneTier false "hourly".data (hourlyOld cfg) store).1).1 = true :=
      pruneTier_namesUnique _ _ _ _ (pruneTier_namesUnique _ _ _ _ hu)
    have ho2 : o ∈ (pruneTier false "daily".data (dailyOld cfg)
          (pruneTier false "hourly".data (hourlyOld cfg) store).1).1 :=
      pruneTier_keep_of_no_pfx _ _ _ _ _
        (pruneTier_keep_of_no_pfx _ _ _ _ _ ho hh0) hd0
    rw [pruneTier_mem_iff_of_pfx _ _ _ _ hu2 ho2 hp]
    cases hopt : cfg.months_to_keep with
    | none => simp [monthlyOld, hopt, decide_eq_false_iff_not]
    | some v => simp [monthlyOld, hopt]

/-- Claim C2, witness: the amended statement applied to an hourly object
aged exactly 48 hours with the retention settings absent. -/
theorem C2_witness :
    (namesUnique [⟨"hourly/p/d_2024.sql.gz".data, 0⟩] = true ∧
     (⟨"hourly/p/d_2024.sql.gz".data, 0⟩ : StoreObj) ∈
       ([⟨"hourly/p/d_2024.sql.gz".data, 0⟩] : Store) ∧
     (⟨false, false, sampleNow, 172800, none, none, none⟩ : Config).dry_run = false) ∧
    ("hourly".data.isPrefixOf ("hourly/p/d_2024.sql.gz".data : Key) = true →
      ((⟨"hourly/p/d_2024.sql.gz".data, 0⟩ : StoreObj) ∈
          (house_keeping ⟨false, false, sampleNow, 172800, none, none, none⟩
            [⟨"hourly/p/d_2024.sql.gz".data, 0⟩]).1 ↔
        ¬((⟨false, false, sampleNow, 172800, none, none, none⟩
              : Config).hours_to_keep = none ∧
          (((⟨false, false, sampleNow, 172800, none, none, none⟩
              : Config).nowSec - 0) / 60) / 60 > 48))) :=
  ⟨⟨by decide, by decide, rfl⟩,
   (C2_amended ⟨false, false, sampleNow, 172800, none, none, none⟩
     [⟨"hourly/p/d_2024.sql.gz".data, 0⟩] ⟨"hourly/p/d_2024.sql.gz".data, 0⟩
     (by decide) (by decide) rfl).1⟩

/-- Claim C1, amended: an object whose key does not match the
serialization pattern never appears in the status output, but pruning
decides on the name prefix and the age alone, so an old object with an
unparsable key under any managed tier prefix (hourly, daily or monthly)
has its deletion issued by house_keeping. -/
theorem C1_amended :
    (∀ store k objs, (k, objs) ∈ backup_status store →
      ∀ o ∈ objs, (parseKey o.name).isSome = true) ∧
    (∀ cfg store o, o ∈ store → cfg.dry_run = false →
      (("hourly".data.isPrefixOf o.name = true ∧ hourlyOld cfg o = true) ∨
       ("daily".data.isPrefixOf o.name = true ∧ dailyOld cfg o = true) ∨
       ("monthly".data.isPrefixOf o.name = true ∧ monthlyOld cfg o = true)) →
      Action.deleteObject o.name ∈ (house_keeping cfg store).2) := by
  constructor
  · intro store k objs hmem o ho
    unfold backup_status at hmem
    rcases List.mem_map.1 hmem with ⟨k2, hk2, he⟩
    cases he
    have h1 := (List.mem_filter.1 ho).1
    unfold statusObjects at h1
    have h2 := (List.mem_filter.1 h1).2
    unfold getKeyName at h2
    simpa using h2
  · intro cfg store o ho hdry hcase
    have hhd : ("hourly".data : Key) = 'h' :: "ourly".data := rfl
    have hdd : ("daily".data : Key) = 'd' :: "aily".data := rfl
    have hmd : ("monthly".data : Key) = 'm' :: "onthly".data := rfl
    unfold house_keeping
    rw [hdry]
    rcases hcase with ⟨hp, hold⟩ | ⟨hp, hold⟩ | ⟨hp, hold⟩
    · exact List.mem_append.2 (Or.inl (List.mem_append.2 (Or.inl
        (pruneTier_trace_delete _ _ _ _ ho hp hold))))
    · have hh0 : "hourly".data.isPrefixOf o.name = false := by
        rw [hhd]; exact isPrefixOf_head_ne (by decide) (hdd ▸ hp)
      have ho1 : o ∈ (pruneTier false "hourly".data (hourlyOld cfg) store).1 :=
        pruneTier_keep_of_no_pfx _ _ _ _ _ ho hh0
      exact List.mem_append.2 (Or.inl (List.mem_append.2 (Or.inr
        (pruneTier_trace_delete _ _ _ _ ho1 hp hold))))
    · have hh0 : "hourly".data.isPrefixOf o.name = false := by
        rw [hhd]; exact isPrefixOf_head_ne (by decide) (hmd ▸ hp)
      have hd0 : "daily".data.isPrefixOf o.name = false := by
        rw [hdd]; exact isPrefixOf_head_ne (by decide) (hmd ▸ hp)
      have ho2 : o ∈ (pruneTier false "daily".data (dailyOld cfg)
          (pruneTier false "hourly".data (hourlyOld cfg) store).1).1 :=
        pruneTier_keep_of_no_pfx _ _ _ _ _
          (pruneTier_keep_of_no_pfx _ _ _ _ _ ho hh0) hd0
      exact List.mem_append.2 (Or.inr
        (pruneTier_trace_delete _ _ _ _ ho2 hp hold))

/-- Claim C1, witness: the amended statement at a concrete input, an old
unparsable key under the daily prefix whose deletion is issued. -/
theorem C1_witness :
    ((⟨"daily/old".data, 0⟩ : StoreObj) ∈ ([⟨"daily/old".data, 0⟩] : Store) ∧
     sampleCfg.dry_run = false ∧
     "daily".data.isPrefixOf ("daily/old".data : Key) = true ∧
     dailyOld sampleCfg ⟨"daily/old".data, 0⟩ = true) ∧
    Action.deleteObject "daily/old".data ∈
      (house_keeping sampleCfg [⟨"daily/old".data, 0⟩]).2 :=
  ⟨⟨by decide, rfl, by decide, by decide⟩,
   C1_amended.2 sampleCfg [⟨"daily/old".data, 0⟩] ⟨"daily/old".data, 0⟩
     (by decide) rfl (Or.inr (Or.inl ⟨by decide, by decide⟩))⟩

/-- Claim C8: house_keeping only ever issues deletions for keys that start
with the hourly, daily or monthly path segment; an object whose key
starts with none of them, in particular one under the yearly tier,
survives the pass untouched. -/
theorem C8_frame (cfg : Config) (store : Store) :
    (∀ a ∈ (house_keeping cfg store).2, ∀ k, a = Action.deleteObject k →
      ("hourly".data.isPrefixOf k = true ∨ "daily".data.isPrefixOf k = true ∨
       "monthly".data.isPrefixOf k = true)) ∧
    (∀ o ∈ store, "hourly".data.isPrefixOf o.name = false →
      "daily".data.isPrefixOf o.name = false →
      "monthly".data.isPrefixOf o.name = false →
      o ∈ (house_keeping cfg store).1) ∧
    (∀ o ∈ store, "yearly".data.isPrefixOf o.name = true →
      o ∈ (house_keeping cfg store).1) := by
  have htr : (house_keeping cfg store).2 =
      (pruneTier cfg.dry_run "hourly".data (hourlyOld cfg) store).2 ++
      (pruneTier cfg.dry_run "daily".data (dailyOld cfg)
        (pruneTier cfg.dry_run "hourly".data (hourlyOld cfg) store).1).2 ++
      (pruneTier cfg.dry_run "monthly".data (monthlyOld cfg)
        (pruneTier cfg.dry_run "daily".data (dailyOld cfg)
          (pruneTier cfg.dry_run "hourly".data (hourlyOld cfg) store).1).1).2 := rfl
  have hst : (house_keeping cfg store).1 =
      (pruneTier cfg.dry_run "monthly".data (monthlyOld cfg)
        (pruneTier cfg.dry_run "daily".data (dailyOld cfg)
          (pruneTier cfg.dry_run "hourly".data (hourlyOld cfg) store).1).1).1 := rfl
  refine ⟨?_, ?_, ?_⟩
  · intro a ha k he
    rw [htr] at ha
    rcases List.mem_append.1 ha with h12 | h3
    · rcases List.mem_append.1 h12 with h1 | h2
      · rcases pruneTier_trace_mem _ _ _ _ _ h1 with hl | ⟨o, -, hp, -, hd⟩
        · rw [he] at hl; cases hl
        · rw [he] at hd
          injection hd with hn
          exact Or.inl (hn ▸ hp)
      · rcases pruneTier_trace_mem _ _ _ _ _ h2 with hl | ⟨o, -, hp, -, hd⟩
        · rw [he] at hl; cases hl
        · rw [he] at hd
          injection hd with hn
          exact Or.inr (Or.inl (hn ▸ hp))
    · rcases pruneTier_trace_mem _ _ _ _ _ h3 with hl | ⟨o, -, hp, -, hd⟩
      · rw [he] at hl; cases hl
      · rw [he] at hd
        injection hd with hn
        exact Or.inr (Or.inr (hn ▸ hp))
  · intro o ho hh hd hm
    rw [hst]
    exact pruneTier_keep_of_no_pfx _ _ _ _ _
      (pruneTier_keep_of_no_pfx _ _ _ _ _
        (pruneTier_keep_of_no_pfx _ _ _ _ _ ho hh) hd) hm
  · intro o ho hy
    have hyd : ("yearly".data : Key) = 'y' :: "early".data := rfl
    rw [hyd] at hy
    have hh : "hourly".data.isPrefixOf o.name = false :=
      isPrefixOf_head_ne (by decide) hy
    have hd : "daily".data.isPrefixOf o.name = false :=
      isPrefixOf_head_ne (by decide) hy
    have hm : "monthly".data.isPrefixOf o.name = false :=
      isPrefixOf_head_ne (by decide) hy
    rw [hst]
    exact pruneTier_keep_of_no_pfx _ _ _ _ _
      (pruneTier_keep_of_no_pfx _ _ _ _ _
        (pruneTier_keep_of_no_pfx _ _ _ _ _ ho hh) hd) hm

/-- Claim C8, witness: a yearly object and an unmanaged object survive a
concrete house_keeping run even though both are very old. -/
theorem C8_witness :
    ((⟨"yearly/p/d_2024.sql.gz".data, 0⟩ : StoreObj) ∈
       ([⟨"yearly/p/d_2024.sql.gz".data, 0⟩, ⟨"other/thing".data, 0⟩] : Store) ∧
     "yearly".data.isPrefixOf ("yearly/p/d_2024.sql.gz".data : Key) = true) ∧
    (⟨"yearly/p/d_2024.sql.gz".data, 0⟩ : StoreObj) ∈
      (house_keeping sampleCfg
        [⟨"yearly/p/d_2024.sql.gz".data, 0⟩, ⟨"other/thing".data, 0⟩]).1 ∧
    (⟨"other/thing".data, 0⟩ : StoreObj) ∈
      (house_keeping sampleCfg
        [⟨"yearly/p/d_2024.sql.gz".data, 0⟩, ⟨"other/thing".data, 0⟩]).1 :=
  ⟨⟨by decide, by decide⟩,
   (C8_frame sampleCfg _).2.2 _ (by decide) (by decide),
   (C8_frame sampleCfg _).2.1 _ (by decide) (by decide) (by decide) (by decide)⟩

/-- Claim C9: with the three retention environment settings absent, the
pruning defaults are 48 hours, 7 days and 24 months, the monthly age
threshold being months_to_keep times 30 days rather than calendar
months: each age test equals the numeric comparison against 48, 7 and
24 * 30, and house_keeping is the three pass pruning with exactly those
numeric thresholds. -/
theorem C9_defaults (ov dry : Bool) (t : PyDateTime) (now : Nat) (store : Store) :
    (∀ o : StoreObj, hourlyOld ⟨ov, dry, t, now, none, none, none⟩ o =
      decide (((now - o.last_modified) / 60) / 60 > 48)) ∧
    (∀ o : StoreObj, dailyOld ⟨ov, dry, t, now, none, none, none⟩ o =
      decide ((now - o.last_modified) / 86400 > 7)) ∧
    (∀ o : StoreObj, monthlyOld ⟨ov, dry, t, now, none, none, none⟩ o =
      decide ((now - o.last_modified) / 86400 > 24 * 30)) ∧
    house_keeping ⟨ov, dry, t, now, none, none, none⟩ store =
      (let r1 := pruneTier dry "hourly".data
          (fun o => ((now - o.last_modified) / 60) / 60 > 48) store
       let r2 := pruneTier dry "daily".data
          (fun o => (now - o.last_modified) / 86400 > 7) r1.1
       let r3 := pruneTier dry "monthly".data
          (fun o => (now - o.last_modified) / 86400 > 24 * 30) r2.1
       (r3.1, r1.2 ++ r2.2 ++ r3.2)) :=
  ⟨fun _ => rfl, fun _ => rfl, fun _ => rfl, rfl⟩

theorem promoteLoop_dry (cfg : Config) (env : StoreEnv) (src : Key)
    (dsts : List Key) (store : Store) (h : cfg.dry_run = true) :
    promoteLoop cfg env src dsts store =
      (store, if cfg.overwrite then [] else dsts.map Action.getObject, false) := by
  induction dsts generalizing store with
  | nil =>
    rcases Bool.eq_false_or_eq_true cfg.overwrite with hov | hov <;>
      simp [promoteLoop, hov]
  | cons dst rest ih =>
    unfold promoteLoop
    rw [h]
    rcases Bool.eq_false_or_eq_true cfg.overwrite with hov | hov <;> rw [hov]
    · simp [ih store, hov]
    · by_cases hh : hasObject store dst
      · simp [hh, ih store, hov]
      · simp [hh, ih store, hov]

theorem envOk_copyFails (s d : Key) : envOk.copyFails s d = false := rfl

theorem promoteLoop_envOk (cfg : Config) (src : Key) (dsts : List Key)
    (store : Store) (h : cfg.dry_run = false) :
    (promoteLoop cfg envOk src dsts store).2.2 = false ∧
    ((promoteLoop cfg envOk src dsts store).2.1).filter Action.isRead =
      (if cfg.overwrite then [] else dsts.map Action.getObject) := by
  induction dsts generalizing store with
  | nil =>
    rcases Bool.eq_false_or_eq_true cfg.overwrite with hov | hov <;>
      simp [promoteLoop, hov]
  | cons dst rest ih =>
    unfold promoteLoop
    rw [h]
    rcases Bool.eq_false_or_eq_true cfg.overwrite with hov | hov <;> rw [hov]
    · have hr := ih (putObject store dst cfg.nowSec)
      simp [envOk_copyFails, Action.isRead, hr.1, hr.2, hov]
    · by_cases hh : hasObject store dst
      · have hr := ih store
        simp [hh, Action.isRead, hr.1, hr.2, hov]
      · have hr := ih (putObject store dst cfg.nowSec)
        simp [hh, envOk_copyFails, Action.isRead, hr.1, hr.2, hov]

theorem filter_isRead_map_delete (l : List StoreObj) :
    (l.map (fun o => Action.deleteObject o.name)).filter Action.isRead = [] := by
  induction l with
  | nil => rfl
  | cons x xs ih => simp [Action.isRead, ih]

theorem house_keeping_trace_filter (cfg : Config) (store : Store)
    (h : cfg.dry_run = false) :
    ((house_keeping cfg store).2).filter Action.isRead =
      [Action.listObjects (some "hourly".data),
       Action.listObjects (some "daily".data),
       Action.listObjects (some "monthly".data)] := by
  unfold house_keeping pruneTier
  rw [h]
  simp [List.filter_append, Action.isRead, filter_isRead_map_delete]

/-- Claim C10: with dry_run on, no dump process is spawned and no upload,
copy or deletion is issued (every operation in the trace is a read and
the store is unchanged), while the reads are exactly the read operations
of the corresponding non dry run: the existence probes of create_dump and
the three tier listings of house_keeping. -/
theorem C10_dry_run (ov : Bool) (t : PyDateTime) (now : Nat)
    (hk dk mk : Option Key) (env : StoreEnv) (store : Store) (folder db : Key) :
    ((create_dump ⟨ov, true, t, now, hk, dk, mk⟩ env store folder db).1 = store ∧
     (create_dump ⟨ov, true, t, now, hk, dk, mk⟩ env store folder db).2.2 = false ∧
     (∀ a ∈ (create_dump ⟨ov, true, t, now, hk, dk, mk⟩ env store folder db).2.1,
        a.isRead = true) ∧
     (create_dump ⟨ov, true, t, now, hk, dk, mk⟩ env store folder db).2.1 =
       ((create_dump ⟨ov, false, t, now, hk, dk, mk⟩ envOk store folder db).2.1).filter
         Action.isRead) ∧
    ((house_keeping ⟨ov, true, t, now, hk, dk, mk⟩ store).1 = store ∧
     (∀ a ∈ (house_keeping ⟨ov, true, t, now, hk, dk, mk⟩ store).2, a.isRead = true) ∧
     (house_keeping ⟨ov, true, t, now, hk, dk, mk⟩ store).2 =
       ((house_keeping ⟨ov, false, t, now, hk, dk, mk⟩ store).2).filter Action.isRead) := by
  have e1 : create_dump ⟨ov, true, t, now, hk, dk, mk⟩ env store folder db =
      promoteLoop ⟨ov, true, t, now, hk, dk, mk⟩ env
        ((filenames t folder db).headD []) (filenames t folder db).tail store := rfl
  have e2 : create_dump ⟨ov, false, t, now, hk, dk, mk⟩ envOk store folder db =
      (let r := promoteLoop ⟨ov, false, t, now, hk, dk, mk⟩ envOk
        ((filenames t folder db).headD []) (filenames t folder db).tail
        (putObject store ((filenames t folder db).headD []) now)
       (r.1, Action.dumpProcess db :: Action.createObject
          ((filenames t folder db).headD []) :: r.2.1, r.2.2)) := rfl
  have h1 := promoteLoop_dry ⟨ov, true, t, now, hk, dk, mk⟩ env
      ((filenames t folder db).headD []) (filenames t folder db).tail store rfl
  have h2 := promoteLoop_envOk ⟨ov, false, t, now, hk, dk, mk⟩
      ((filenames t folder db).headD []) (filenames t folder db).tail
      (putObject store ((filenames t folder db).headD []) now) rfl
  have hkd : (house_keeping ⟨ov, true, t, now, hk, dk, mk⟩ store).1 = store ∧
      (house_keeping ⟨ov, true, t, now, hk, dk, mk⟩ store).2 =
        [Action.listObjects (some "hourly".data),
         Action.listObjects (some "daily".data),
         Action.listObjects (some "monthly".data)] := ⟨rfl, rfl⟩
  refine ⟨⟨?_, ?_, ?_, ?_⟩, ?_, ?_, ?_⟩
  · rw [e1, h1]
  · rw [e1, h1]
  · rw [e1, h1]
    intro a ha
    rcases Bool.eq_false_or_eq_true ov with hov | hov <;> rw [hov] at ha
    · simp at ha
    · rw [filenames_eq] at ha
      simp at ha
      rcases ha with rfl | rfl | rfl <;> rfl
  · rw [e1, h1, e2]
    simp only
    rw [List.filter_cons, List.filter_cons, h2.2]
    norm_num [Action.isRead]
  · exact hkd.1
  · rw [hkd.2]
    intro a ha
    rcases List.mem_cons.1 ha with h | h
    · rw [h]; rfl
    rcases List.mem_cons.1 h with h | h
    · rw [h]; rfl
    rcases List.mem_cons.1 h with h | h
    · rw [h]; rfl
    · cases h
  · rw [hkd.2, house_keeping_trace_filter _ _ rfl]

end Backuper
